import Mathlib

/-
Verification development for the F1 strategy lab core
(strategy generator, race simulator, strategy evaluator,
contingency engine, contingency ranker).

Modelling conventions:
- Python floats are modelled as exact rationals (`ℚ`).  The float literals
  0.38 / 0.5 / 0.62 / 0.32 / 0.67 / 0.06 / 0.2 that scale integer lap counts
  are modelled as the exact fractions 38/100 etc.; `int(x)` truncation of a
  non-negative product becomes natural-number division.  This agrees with
  IEEE-double evaluation for every lap count that fits in 52 bits.
- The numpy `Generator` is modelled as a stream `g : ℕ → ℚ` of raw draws
  together with a cursor index that advances by one per drawn scalar, in the
  exact order the source draws them.  `rng.random()` returns the raw draw,
  `rng.uniform(a, b)` returns `a + (b - a) * draw`, and `rng.normal(mu, sigma)`
  returns `mu + sigma * draw` (the draw standing for the standard-normal
  deviate).  `np.random.default_rng(seed)` is modelled as a function from the
  seed to such a stream.
- A pandas `DataFrame` is modelled as a list of records; `sort_values` on a
  frame that lacks the sort column (the empty frame built from zero rows has
  no columns at all) is modelled as the `KeyError` branch of an `Except`.
- A Python dict keyed by strings is modelled as an association list;
  `dict.get(k, d)` becomes `(List.lookup k).getD d`.
-/

set_option maxRecDepth 40000

namespace F1StrategyLab

/-! ## Strategy generator (strategy/simulator.py lines 14-61) -/

structure StrategyCandidate where
  name : String
  compounds : List String
  pit_laps : List ℕ
deriving DecidableEq, Repr

def defaultCompounds : List String := ["SOFT", "MEDIUM", "HARD"]

/-- Models Python `str.upper()` on the compound identifiers (ASCII).  Defined
directly over the character list so that terms evaluate by kernel reduction
(`String.toUpper` is defined by well-founded recursion and does not). -/
def pyUpper (s : String) : String := ⟨s.data.map Char.toUpper⟩

/-- Models `int(total_laps * (k/100))` for the float pit fractions. -/
def pitFrac (totalLaps k : ℕ) : ℕ := k * totalLaps / 100

/-- One-stop options: every ordered pair of distinct compounds at the
38% / 50% / 62% pit fractions (simulator.py lines 30-42). -/
def oneStopCandidates (totalLaps : ℕ) (unique : List String) : List StrategyCandidate :=
  unique.flatMap fun c1 =>
    unique.flatMap fun c2 =>
      if c1 = c2 then []
      else
        [pitFrac totalLaps 38, pitFrac totalLaps 50, pitFrac totalLaps 62].map fun pit =>
          { name := "ONE_STOP_" ++ c1 ++ "_" ++ c2 ++ "_L" ++ toString pit
            compounds := [c1, c2]
            pit_laps := [pit] }

/-- Two-stop options: every ordered triple using at least two distinct
compounds, pits at the 32% and 67% fractions (simulator.py lines 44-58).
`len({c1,c2,c3}) < 2` holds exactly when all three compounds coincide. -/
def twoStopCandidates (totalLaps : ℕ) (unique : List String) : List StrategyCandidate :=
  unique.flatMap fun c1 =>
    unique.flatMap fun c2 =>
      unique.flatMap fun c3 =>
        if c1 = c2 ∧ c2 = c3 then []
        else
          [{ name := "TWO_STOP_" ++ c1 ++ "_" ++ c2 ++ "_" ++ c3 ++ "_L" ++
               toString (pitFrac totalLaps 32) ++ "_" ++ toString (pitFrac totalLaps 67)
             compounds := [c1, c2, c3]
             pit_laps := [pitFrac totalLaps 32, pitFrac totalLaps 67] }]

/-- One step of the name-keyed dict comprehension `{c.name: c for c in out}`:
an existing key keeps its insertion position but its value is overwritten,
a new key is appended. -/
def dedupStep (acc : List StrategyCandidate) (c : StrategyCandidate) : List StrategyCandidate :=
  if acc.any fun a => a.name = c.name then
    acc.map fun a => if a.name = c.name then c else a
  else
    acc ++ [c]

def dedupByName (l : List StrategyCandidate) : List StrategyCandidate :=
  l.foldl dedupStep []

/-- Models `generate_candidate_strategies` (simulator.py lines 21-61).
`compounds or ["SOFT", "MEDIUM", "HARD"]` replaces a falsy argument —
`None` or the empty list — by the default compound list. -/
def generate_candidate_strategies (totalLaps : ℕ) (compounds : List String) :
    List StrategyCandidate :=
  let cs := if compounds.isEmpty then defaultCompounds else compounds
  let unique := cs.map pyUpper
  dedupByName (oneStopCandidates totalLaps unique ++ twoStopCandidates totalLaps unique)

/-! ### Dedup lemmas -/

theorem dedupStep_mem {acc : List StrategyCandidate} {c a : StrategyCandidate}
    (h : a ∈ dedupStep acc c) : a ∈ acc ∨ a = c := by
  unfold dedupStep at h
  by_cases hany : (acc.any fun a => a.name = c.name) = true
  · rw [if_pos hany] at h
    rcases List.mem_map.mp h with ⟨b, hb, hba⟩
    by_cases hbc : b.name = c.name
    · rw [if_pos hbc] at hba
      exact Or.inr hba.symm
    · rw [if_neg hbc] at hba
      exact Or.inl (hba ▸ hb)
  · rw [if_neg hany] at h
    rcases List.mem_append.mp h with h' | h'
    · exact Or.inl h'
    · exact Or.inr (List.mem_singleton.mp h')

theorem foldl_dedupStep_mem :
    ∀ (l acc : List StrategyCandidate) (a : StrategyCandidate),
      a ∈ l.foldl dedupStep acc → a ∈ acc ∨ a ∈ l := by
  intro l
  induction l with
  | nil => intro acc a h; exact Or.inl h
  | cons c t ih =>
      intro acc a h
      rcases ih (dedupStep acc c) a h with h' | h'
      · rcases dedupStep_mem h' with h'' | h''
        · exact Or.inl h''
        · exact Or.inr (h'' ▸ List.mem_cons_self c t)
      · exact Or.inr (List.mem_cons_of_mem c h')

theorem dedupByName_subset {l : List StrategyCandidate} {a : StrategyCandidate}
    (h : a ∈ dedupByName l) : a ∈ l := by
  rcases foldl_dedupStep_mem l [] a h with h' | h'
  · exact absurd h' (List.not_mem_nil a)
  · exact h'

theorem dedupStep_ne_nil (acc : List StrategyCandidate) (c : StrategyCandidate) :
    dedupStep acc c ≠ [] := by
  unfold dedupStep
  by_cases hany : (acc.any fun a => a.name = c.name) = true
  · rw [if_pos hany]
    intro hmap
    rcases acc with _ | ⟨x, xs⟩
    · simp at hany
    · simp at hmap
  · rw [if_neg hany]
    simp

theorem foldl_dedupStep_ne_nil :
    ∀ (l acc : List StrategyCandidate), acc ≠ [] → l.foldl dedupStep acc ≠ [] := by
  intro l
  induction l with
  | nil => intro acc h; exact h
  | cons c t ih => intro acc _; exact ih (dedupStep acc c) (dedupStep_ne_nil acc c)

theorem dedupByName_ne_nil {l : List StrategyCandidate} (h : l ≠ []) :
    dedupByName l ≠ [] := by
  rcases l with _ | ⟨c, t⟩
  · exact absurd rfl h
  · exact foldl_dedupStep_ne_nil t (dedupStep [] c) (dedupStep_ne_nil [] c)

/-! ### Shape of generated candidates -/

theorem mem_oneStopCandidates {n : ℕ} {up : List String} {cand : StrategyCandidate}
    (h : cand ∈ oneStopCandidates n up) :
    ∃ c1 c2 pit, pit ∈ [pitFrac n 38, pitFrac n 50, pitFrac n 62] ∧
      cand.compounds = [c1, c2] ∧ cand.pit_laps = [pit] := by
  unfold oneStopCandidates at h
  simp only [List.mem_flatMap] at h
  obtain ⟨c1, _, c2, _, h⟩ := h
  by_cases hc : c1 = c2
  · rw [if_pos hc] at h
    exact absurd h (List.not_mem_nil _)
  · rw [if_neg hc] at h
    rcases List.mem_map.mp h with ⟨pit, hpit, rfl⟩
    exact ⟨c1, c2, pit, hpit, rfl, rfl⟩

theorem mem_twoStopCandidates {n : ℕ} {up : List String} {cand : StrategyCandidate}
    (h : cand ∈ twoStopCandidates n up) :
    ∃ c1 c2 c3, cand.compounds = [c1, c2, c3] ∧
      cand.pit_laps = [pitFrac n 32, pitFrac n 67] := by
  unfold twoStopCandidates at h
  simp only [List.mem_flatMap] at h
  obtain ⟨c1, _, c2, _, c3, _, h⟩ := h
  by_cases hc : c1 = c2 ∧ c2 = c3
  · rw [if_pos hc] at h
    exact absurd h (List.not_mem_nil _)
  · rw [if_neg hc] at h
    rcases List.mem_singleton.mp h with rfl
    exact ⟨c1, c2, c3, rfl, rfl⟩

/-- C3 (amended): for every `total_laps ≥ 4` and non-empty compound list, every
generated candidate has `len(compounds) = len(pit_laps) + 1`, strictly
increasing pit laps, and every pit lap in `[1, total_laps - 1]`.  (For
`total_laps ≤ 3` the 32% — and for `total_laps ≤ 2` also the 38% — pit
fraction truncates to lap 0, outside the claimed range, so the claim's "every
positive total_laps" must be restricted to `total_laps ≥ 4`.) -/
theorem generator_candidate_invariants (n : ℕ) (cs : List String)
    (hn : 4 ≤ n) (_hcs : cs ≠ []) (cand : StrategyCandidate)
    (hmem : cand ∈ generate_candidate_strategies n cs) :
    cand.compounds.length = cand.pit_laps.length + 1 ∧
    cand.pit_laps.Pairwise (· < ·) ∧
    ∀ p ∈ cand.pit_laps, 1 ≤ p ∧ p ≤ n - 1 := by
  have hmem' : cand ∈ dedupByName
      (oneStopCandidates n ((if cs.isEmpty then defaultCompounds else cs).map pyUpper) ++
       twoStopCandidates n ((if cs.isEmpty then defaultCompounds else cs).map pyUpper)) :=
    hmem
  rcases List.mem_append.mp (dedupByName_subset hmem') with h1 | h2
  · obtain ⟨c1, c2, pit, hpit, hcomp, hlaps⟩ := mem_oneStopCandidates h1
    refine ⟨by rw [hcomp, hlaps]; rfl, by rw [hlaps]; exact List.pairwise_singleton _ _, ?_⟩

    intro p hp
    rw [hlaps] at hp
    rcases List.mem_singleton.mp hp with rfl
    simp only [List.mem_cons, List.mem_singleton, List.not_mem_nil, or_false] at hpit
    unfold pitFrac at hpit
    rcases hpit with rfl | rfl | rfl <;> omega
  · obtain ⟨c1, c2, c3, hcomp, hlaps⟩ := mem_twoStopCandidates h2
    refine ⟨by rw [hcomp, hlaps]; rfl, ?_, ?_⟩
    · rw [hlaps]
      refine List.pairwise_cons.mpr ⟨?_, List.pairwise_singleton _ _⟩
      intro p hp
      rcases List.mem_singleton.mp hp with rfl
      unfold pitFrac
      omega
    · intro p hp
      rw [hlaps] at hp
      simp only [List.mem_cons, List.mem_singleton, List.not_mem_nil, or_false] at hp
      unfold pitFrac at hp
      rcases hp with rfl | rfl <;> omega

/-- C3 counterexample: `total_laps = 2` is positive and the compound list
non-empty, yet the generator emits a candidate whose pit lap is 0, outside
`[1, total_laps - 1]`. -/
theorem generator_invariants_counterexample :
    ∃ cand ∈ generate_candidate_strategies 2 ["SOFT", "MEDIUM"],
      ∃ p ∈ cand.pit_laps, p < 1 := by decide

/-- C3 witness. -/
theorem generator_candidate_invariants_witness :
    (4 ≤ 58 ∧ (["SOFT", "MEDIUM"] : List String) ≠ [] ∧
      (⟨"ONE_STOP_SOFT_MEDIUM_L22", ["SOFT", "MEDIUM"], [22]⟩ : StrategyCandidate) ∈
        generate_candidate_strategies 58 ["SOFT", "MEDIUM"]) ∧
    ((⟨"ONE_STOP_SOFT_MEDIUM_L22", ["SOFT", "MEDIUM"], [22]⟩ :
        StrategyCandidate).compounds.length =
      (⟨"ONE_STOP_SOFT_MEDIUM_L22", ["SOFT", "MEDIUM"], [22]⟩ :
        StrategyCandidate).pit_laps.length + 1 ∧
     (⟨"ONE_STOP_SOFT_MEDIUM_L22", ["SOFT", "MEDIUM"], [22]⟩ :
        StrategyCandidate).pit_laps.Pairwise (· < ·) ∧
     ∀ p ∈ (⟨"ONE_STOP_SOFT_MEDIUM_L22", ["SOFT", "MEDIUM"], [22]⟩ :
        StrategyCandidate).pit_laps, 1 ≤ p ∧ p ≤ 58 - 1) :=
  ⟨⟨by decide, by decide, by decide⟩,
    generator_candidate_invariants 58 ["SOFT", "MEDIUM"] (by decide) (by decide) _ (by decide)⟩

/-- C1 counterexample: with the positive lap count 58 an empty compound list
does not yield a candidate set of size zero. -/
theorem generator_empty_compounds_counterexample :
    (generate_candidate_strategies 58 []).length ≠ 0 := by decide

/-- C1 (amended): an empty compound list is falsy in `compounds or [...]`, so
the generator silently substitutes the default compound list
`[SOFT, MEDIUM, HARD]`: the result coincides with the default-compound call
and is never empty. -/
theorem generator_empty_compounds_default (n : ℕ) :
    generate_candidate_strategies n [] = generate_candidate_strategies n defaultCompounds ∧
    generate_candidate_strategies n [] ≠ [] := by
  constructor
  · rfl
  · show dedupByName
        (oneStopCandidates n (defaultCompounds.map pyUpper) ++
         twoStopCandidates n (defaultCompounds.map pyUpper)) ≠ []
    apply dedupByName_ne_nil
    intro hnil
    have h24 : (twoStopCandidates n (defaultCompounds.map pyUpper)).length = 24 := rfl
    have hlen := congrArg List.length hnil
    rw [List.length_append, h24] at hlen
    simp at hlen

/-- C4 counterexample: at `total_laps = 58` with compounds SOFT/MEDIUM/HARD
the generator produces 18 one-stop candidates (6 ordered distinct pairs × 3
pit fractions), not 36. -/
theorem generator_one_stop_count_counterexample :
    ((generate_candidate_strategies 58 ["SOFT", "MEDIUM", "HARD"]).filter
        fun c => c.pit_laps.length == 1).length ≠ 36 := by decide

/-- C4 (amended): at `total_laps = 58` with compounds SOFT/MEDIUM/HARD the
generator produces 18 one-stop candidates, a non-empty two-stop set (24
candidates), and no two candidates share a name. -/
theorem generator_counts_58 :
    ((generate_candidate_strategies 58 ["SOFT", "MEDIUM", "HARD"]).filter
        fun c => c.pit_laps.length == 1).length = 18 ∧
    ((generate_candidate_strategies 58 ["SOFT", "MEDIUM", "HARD"]).filter
        fun c => c.pit_laps.length == 2).length = 24 ∧
    ((generate_candidate_strategies 58 ["SOFT", "MEDIUM", "HARD"]).map
        fun c => c.name).Nodup := by decide

/-! ## Race simulator (strategy/simulator.py lines 64-123) -/

structure SimulationConfig where
  n_simulations : ℕ
  pit_loss_seconds : ℚ
  safety_car_probability : ℚ
  weather_uncertainty_seconds : ℚ
  traffic_uncertainty_seconds : ℚ
deriving DecidableEq, Repr

/-- Models `_compound_for_lap` (lines 64-72): count the pit laps strictly
before `lap`, clamp to the last compound. -/
def compoundForLap (strategy : StrategyCandidate) (lap : ℕ) : String :=
  if strategy.pit_laps = [] then strategy.compounds.headD ""
  else
    let idx := (strategy.pit_laps.filter fun pit => pit < lap).length
    strategy.compounds.getD (min idx (strategy.compounds.length - 1)) ""

/-- Models `degradation.get(compound, 0.1)` (line 101). -/
def degFor (degradation : List (String × ℚ)) (compound : String) : ℚ :=
  (degradation.lookup compound).getD (1/10)

/-- Mutable state of the per-trial loop: cumulative race time, laps on the
current tire, and the rng cursor. -/
structure SimState where
  raceTime : ℚ
  stintAge : ℕ
  idx : ℕ
deriving DecidableEq, Repr

/-- Pit-stop block of `_simulate_single_race` (lines 93-98): add
`pit_loss_seconds` — scaled by `uniform(0.55, 0.75)` when the safety-car draw
`rng.random() < safety_car_probability` succeeds — and reset the stint age. -/
def pitAdjustedState (cfg : SimulationConfig) (g : ℕ → ℚ) (s : SimState) : SimState :=
  if g s.idx < cfg.safety_car_probability then
    { raceTime := s.raceTime + cfg.pit_loss_seconds * (11/20 + (3/4 - 11/20) * g (s.idx + 1))
      stintAge := 0
      idx := s.idx + 2 }
  else
    { raceTime := s.raceTime + cfg.pit_loss_seconds, stintAge := 0, idx := s.idx + 1 }

/-- Lap-time accumulation of `_simulate_single_race` (lines 100-111), applied
to the post-pit state: three normal draws (traffic, weather, noise), the lap
time floored at 40 s, and the stint age advanced. -/
def lapUpdate (strategy : StrategyCandidate) (totalLaps : ℕ) (baseLapTime : ℚ)
    (degradation : List (String × ℚ)) (fuelEffect trafficIndex rainIndex : ℚ)
    (cfg : SimulationConfig) (g : ℕ → ℚ) (lap : ℕ) (s : SimState) : SimState :=
  let compound := compoundForLap strategy lap
  let deg := degFor degradation compound
  let fuelTerm := -fuelEffect * ((lap : ℚ) / (totalLaps : ℚ)) * 5
  let tireTerm := deg * (s.stintAge : ℚ)
  let trafficTerm := trafficIndex * (1/10 + (2/25) * g s.idx)
  let weatherTerm := rainIndex * (1/4 + (3/25) * g (s.idx + 1))
  let noise := (cfg.weather_uncertainty_seconds + cfg.traffic_uncertainty_seconds) * g (s.idx + 2)
  let lapTime := baseLapTime + fuelTerm + tireTerm + trafficTerm + weatherTerm + noise
  { raceTime := s.raceTime + max lapTime 40, stintAge := s.stintAge + 1, idx := s.idx + 3 }

/-- One iteration of the lap loop (lines 92-111). -/
def simLap (strategy : StrategyCandidate) (totalLaps : ℕ) (baseLapTime : ℚ)
    (degradation : List (String × ℚ)) (fuelEffect trafficIndex rainIndex : ℚ)
    (cfg : SimulationConfig) (g : ℕ → ℚ) (lap : ℕ) (s : SimState) : SimState :=
  lapUpdate strategy totalLaps baseLapTime degradation fuelEffect trafficIndex rainIndex cfg g lap
    (if lap ∈ strategy.pit_laps then pitAdjustedState cfg g s else s)

/-- Models `_simulate_single_race` (lines 75-113): fold the lap loop over laps
1..total_laps and return the total race time with the advanced rng cursor. -/
def simulateSingleRace (strategy : StrategyCandidate) (totalLaps : ℕ) (baseLapTime : ℚ)
    (degradation : List (String × ℚ)) (fuelLoadProxy trafficIndex rainIndex : ℚ)
    (cfg : SimulationConfig) (g : ℕ → ℚ) (idx : ℕ) : ℚ × ℕ :=
  let fuelEffect := max (1/20) (min (3/10) (fuelLoadProxy / max ((totalLaps : ℚ) * (3/50)) 1))
  let final := (List.range' 1 totalLaps).foldl
    (fun s lap =>
      simLap strategy totalLaps baseLapTime degradation fuelEffect trafficIndex rainIndex cfg g
        lap s)
    { raceTime := 0, stintAge := 0, idx := idx }
  (final.raceTime, final.idx)

/-- C5: on a pit lap the simulator first applies the pit block, which adds
`pit_loss_seconds` to the cumulative race time — scaled by a factor drawn
uniformly from [0.55, 0.75) when the safety-car event (probability
`safety_car_probability`, drawn independently per pit stop) succeeds — and
resets the laps-on-current-tire counter to 0. -/
theorem simulator_pit_stop (strategy : StrategyCandidate) (totalLaps : ℕ)
    (baseLapTime : ℚ) (degradation : List (String × ℚ))
    (fuelEffect trafficIndex rainIndex : ℚ) (cfg : SimulationConfig)
    (g : ℕ → ℚ) (lap : ℕ) (s : SimState)
    (hpit : lap ∈ strategy.pit_laps)
    (h0 : 0 ≤ g (s.idx + 1)) (h1 : g (s.idx + 1) < 1) :
    simLap strategy totalLaps baseLapTime degradation fuelEffect trafficIndex rainIndex cfg g lap
        s =
      lapUpdate strategy totalLaps baseLapTime degradation fuelEffect trafficIndex rainIndex cfg g
        lap (pitAdjustedState cfg g s) ∧
    (pitAdjustedState cfg g s).stintAge = 0 ∧
    (if g s.idx < cfg.safety_car_probability then
        ∃ u, 11/20 ≤ u ∧ u < 3/4 ∧
          (pitAdjustedState cfg g s).raceTime = s.raceTime + cfg.pit_loss_seconds * u
      else (pitAdjustedState cfg g s).raceTime = s.raceTime + cfg.pit_loss_seconds) := by
  refine ⟨by unfold simLap; rw [if_pos hpit], ?_, ?_⟩
  · by_cases hsc : g s.idx < cfg.safety_car_probability <;> simp [pitAdjustedState, hsc]
  · by_cases hsc : g s.idx < cfg.safety_car_probability
    · rw [if_pos hsc]
      refine ⟨11/20 + (3/4 - 11/20) * g (s.idx + 1), ?_, ?_, by simp [pitAdjustedState, hsc]⟩
      · nlinarith
      · nlinarith
    · rw [if_neg hsc]
      simp [pitAdjustedState, hsc]

def wStrategy : StrategyCandidate := ⟨"W", ["SOFT", "HARD"], [1]⟩

def wCfg : SimulationConfig := ⟨1, 20, 1/2, 0, 0⟩

def wStream : ℕ → ℚ := fun _ => 0

def wState : SimState := ⟨0, 5, 0⟩

/-- C5 witness. -/
theorem simulator_pit_stop_witness :
    ((1 : ℕ) ∈ wStrategy.pit_laps ∧ 0 ≤ wStream (wState.idx + 1) ∧
      wStream (wState.idx + 1) < 1) ∧
    (simLap wStrategy 3 90 [] 0 0 0 wCfg wStream 1 wState =
        lapUpdate wStrategy 3 90 [] 0 0 0 wCfg wStream 1 (pitAdjustedState wCfg wStream wState) ∧
      (pitAdjustedState wCfg wStream wState).stintAge = 0 ∧
      (if wStream wState.idx < wCfg.safety_car_probability then
          ∃ u, 11/20 ≤ u ∧ u < 3/4 ∧
            (pitAdjustedState wCfg wStream wState).raceTime =
              wState.raceTime + wCfg.pit_loss_seconds * u
        else (pitAdjustedState wCfg wStream wState).raceTime =
          wState.raceTime + wCfg.pit_loss_seconds)) :=
  ⟨⟨by decide, by decide, by decide⟩,
    simulator_pit_stop wStrategy 3 90 [] 0 0 0 wCfg wStream 1 wState (by decide) (by decide)
      (by decide)⟩

/-- C10: when the active compound of a lap is missing from the degradation
mapping the simulator does not fail: `degradation.get(compound, 0.1)` falls
back to a rate of 0.1 s per lap of tire age, so the lap update behaves
exactly as if the mapping carried the entry `(compound, 1/10)`. -/
theorem simulator_missing_compound_default (strategy : StrategyCandidate)
    (totalLaps : ℕ) (baseLapTime : ℚ) (degradation : List (String × ℚ))
    (fuelEffect trafficIndex rainIndex : ℚ) (cfg : SimulationConfig)
    (g : ℕ → ℚ) (lap : ℕ) (s : SimState)
    (h : degradation.lookup (compoundForLap strategy lap) = none) :
    degFor degradation (compoundForLap strategy lap) = 1/10 ∧
    lapUpdate strategy totalLaps baseLapTime degradation fuelEffect trafficIndex rainIndex cfg g
        lap s =
      lapUpdate strategy totalLaps baseLapTime
        ((compoundForLap strategy lap, 1/10) :: degradation) fuelEffect trafficIndex rainIndex
        cfg g lap s := by
  have hdeg : degFor degradation (compoundForLap strategy lap) = 1/10 := by
    unfold degFor
    rw [h]
    rfl
  have hdeg2 : degFor ((compoundForLap strategy lap, 1/10) :: degradation)
      (compoundForLap strategy lap) = 1/10 := by
    unfold degFor
    simp [List.lookup]
  refine ⟨hdeg, ?_⟩
  simp only [lapUpdate, hdeg, hdeg2]

def w2Strategy : StrategyCandidate := ⟨"W2", ["SOFT"], []⟩

/-- C10 witness. -/
theorem simulator_missing_compound_default_witness :
    (([] : List (String × ℚ)).lookup (compoundForLap w2Strategy 1) = none) ∧
    (degFor [] (compoundForLap w2Strategy 1) = 1/10 ∧
      lapUpdate w2Strategy 3 90 [] 0 0 0 wCfg wStream 1 wState =
        lapUpdate w2Strategy 3 90 [(compoundForLap w2Strategy 1, 1/10)] 0 0 0 wCfg wStream 1
          wState) :=
  ⟨rfl, simulator_missing_compound_default w2Strategy 3 90 [] 0 0 0 wCfg wStream 1 wState rfl⟩

/-! ## Points conversion (strategy/simulator.py lines 11, 116-123) -/

def F1_POINTS (position : ℕ) : ℕ :=
  match position with
  | 1 => 25 | 2 => 18 | 3 => 15 | 4 => 12 | 5 => 10
  | 6 => 8 | 7 => 6 | 8 => 4 | 9 => 2 | 10 => 1
  | _ => 0

def rivalOffsets : List ℚ := [0, 4, 41/5, 12, 31/2, 99/5, 47/2, 27, 156/5]

/-- Models `_simulated_points` (lines 116-123): nine rival finish times
`t + offset + Normal(0, 2.8)`, position = 1 + number of strictly faster
rivals, points from the top-10 table; returns the points and the advanced
rng cursor. -/
def simulatedPoints (teamRaceTime : ℚ) (g : ℕ → ℚ) (idx : ℕ) : ℕ × ℕ :=
  let position := 1 + ((List.range rivalOffsets.length).countP fun j =>
    decide (teamRaceTime + rivalOffsets.getD j 0 + (14/5) * g (idx + j) < teamRaceTime))
  (F1_POINTS position, idx + rivalOffsets.length)

/-! ## Strategy evaluator (strategy/simulator.py lines 126-187) -/

structure EvalRow where
  strategy : String
  stops : ℕ
  compounds : String
  pit_laps : String
  expected_race_time : ℚ
  p10_time : ℚ
  p90_time : ℚ
  robustness_window : ℚ
  win_probability : ℚ
  expected_points : ℚ
  strategy_score : ℚ
deriving DecidableEq, Repr

def sortAsc (xs : List ℚ) : List ℚ := List.insertionSort (· ≤ ·) xs

/-- Linear interpolation at virtual index `h` into the order statistics `s`
(clamped at index `n - 1`), as `np.percentile`'s default method does. -/
def interpAt (s : List ℚ) (n : ℕ) (h : ℚ) : ℚ :=
  s.getD ⌊h⌋₊ 0 + (h - (⌊h⌋₊ : ℚ)) * (s.getD (min (⌊h⌋₊ + 1) (n - 1)) 0 - s.getD ⌊h⌋₊ 0)

/-- Models `np.percentile(xs, q)` (linear method): virtual index
`q (n-1) / 100` into the ascending sort. -/
def percentile (xs : List ℚ) (q : ℚ) : ℚ :=
  if xs.isEmpty then 0
  else interpAt (sortAsc xs) xs.length (q * ((xs.length : ℚ) - 1) / 100)

def mean (xs : List ℚ) : ℚ := xs.sum / xs.length

/-- Models `np.mean(points >= 25)`: the fraction of trials with at least the
winner's 25 points. -/
def winFrac (points : List ℕ) : ℚ :=
  ((points.countP fun p => decide (25 ≤ p) : ℕ) : ℚ) / points.length

/-- The `n_simulations` trials of one candidate (lines 141-157), threading the
rng cursor through consecutive trials. -/
def runTrials (strategy : StrategyCandidate) (totalLaps : ℕ) (baseLapTime : ℚ)
    (degradation : List (String × ℚ)) (fuelLoadProxy trafficIndex rainIndex : ℚ)
    (cfg : SimulationConfig) (g : ℕ → ℚ) : ℕ → ℕ → List ℚ × ℕ
  | 0, idx => ([], idx)
  | k + 1, idx =>
      let r := simulateSingleRace strategy totalLaps baseLapTime degradation fuelLoadProxy
        trafficIndex rainIndex cfg g idx
      let rest := runTrials strategy totalLaps baseLapTime degradation fuelLoadProxy trafficIndex
        rainIndex cfg g k r.2
      (r.1 :: rest.1, rest.2)

/-- The per-sample points pass (line 159), threading the rng cursor. -/
def runPoints (g : ℕ → ℚ) : List ℚ → ℕ → List ℕ × ℕ
  | [], idx => ([], idx)
  | t :: ts, idx =>
      let p := simulatedPoints t g idx
      let rest := runPoints g ts p.2
      (p.1 :: rest.1, rest.2)

/-- The aggregate row for one candidate (lines 140-182). -/
def evalRowFor (candidate : StrategyCandidate) (totalLaps : ℕ) (baseLapTime : ℚ)
    (degradation : List (String × ℚ)) (fuelLoadProxy trafficIndex rainIndex : ℚ)
    (cfg : SimulationConfig) (g : ℕ → ℚ) (idx : ℕ) : EvalRow × ℕ :=
  let samples := runTrials candidate totalLaps baseLapTime degradation fuelLoadProxy trafficIndex
    rainIndex cfg g cfg.n_simulations idx
  let points := runPoints g samples.1 samples.2
  let p10 := percentile samples.1 10
  let p90 := percentile samples.1 90
  let robustness := p90 - p10
  let expectedPoints := mean (points.1.map fun p => (p : ℚ))
  ({ strategy := candidate.name
     stops := candidate.pit_laps.length
     compounds := String.intercalate "->" candidate.compounds
     pit_laps := String.intercalate "," (candidate.pit_laps.map toString)
     expected_race_time := mean samples.1
     p10_time := p10
     p90_time := p90
     robustness_window := robustness
     win_probability := winFrac points.1
     expected_points := expectedPoints
     strategy_score := expectedPoints - (1/50) * robustness }, points.2)

/-- Sort key of the output table: `strategy_score` descending, tie-break
`expected_race_time` ascending (line 185). -/
def rowLE (r1 r2 : EvalRow) : Prop :=
  r2.strategy_score < r1.strategy_score ∨
    (r1.strategy_score = r2.strategy_score ∧ r1.expected_race_time ≤ r2.expected_race_time)

instance : DecidableRel rowLE := fun r1 r2 => by
  unfold rowLE
  exact inferInstance

def sortRows (rows : List EvalRow) : List EvalRow := List.insertionSort rowLE rows

/-- One iteration of the per-candidate loop: append the candidate's row and
carry the advanced rng cursor. -/
def evalStep (totalLaps : ℕ) (baseLapTime : ℚ) (degradation : List (String × ℚ))
    (fuelLoadProxy trafficIndex rainIndex : ℚ) (cfg : SimulationConfig) (g : ℕ → ℚ)
    (acc : List EvalRow × ℕ) (c : StrategyCandidate) : List EvalRow × ℕ :=
  let r := evalRowFor c totalLaps baseLapTime degradation fuelLoadProxy trafficIndex rainIndex
    cfg g acc.2
  (acc.1 ++ [r.1], r.2)

/-- The per-candidate row loop (lines 138-182): one shared rng stream,
consumed in candidate order. -/
def evaluateRows (candidates : List StrategyCandidate) (totalLaps : ℕ) (baseLapTime : ℚ)
    (degradation : List (String × ℚ)) (fuelLoadProxy trafficIndex rainIndex : ℚ)
    (cfg : SimulationConfig) (g : ℕ → ℚ) : List EvalRow :=
  (candidates.foldl
    (evalStep totalLaps baseLapTime degradation fuelLoadProxy trafficIndex rainIndex cfg g)
    (([] : List EvalRow), 0)).1

/-- Models `evaluate_strategies` (lines 126-187).  The final
`frame.sort_values(by=["strategy_score", "expected_race_time"], ...)` raises
`KeyError` when the frame lacks those columns, which happens exactly when the
row list is empty (the frame then has no columns at all). -/
def evaluate_strategies (candidates : List StrategyCandidate) (totalLaps : ℕ) (baseLapTime : ℚ)
    (degradation : List (String × ℚ)) (fuelLoadProxy trafficIndex rainIndex : ℚ)
    (cfg : SimulationConfig) (g : ℕ → ℚ) : Except String (List EvalRow) :=
  let rows := evaluateRows candidates totalLaps baseLapTime degradation fuelLoadProxy trafficIndex
    rainIndex cfg g
  if rows.isEmpty then Except.error "KeyError: strategy_score"
  else Except.ok (sortRows rows)

/-- Models `rng = np.random.default_rng(random_state)` followed by the
evaluation: `default_rng` deterministically derives the draw stream from the
seed, modelled by an arbitrary but fixed seed-to-stream map `mkStream`. -/
def evaluate_strategies_seeded (mkStream : ℤ → ℕ → ℚ) (candidates : List StrategyCandidate)
    (totalLaps : ℕ) (baseLapTime : ℚ) (degradation : List (String × ℚ))
    (fuelLoadProxy trafficIndex rainIndex : ℚ) (cfg : SimulationConfig) (randomState : ℤ) :
    Except String (List EvalRow) :=
  evaluate_strategies candidates totalLaps baseLapTime degradation fuelLoadProxy trafficIndex
    rainIndex cfg (mkStream randomState)

/-! ### Percentile monotonicity and row bounds -/

theorem getD_sorted_mono {s : List ℚ} (hs : List.Sorted (· ≤ ·) s) {i j : ℕ}
    (hij : i ≤ j) (hj : j < s.length) : s.getD i 0 ≤ s.getD j 0 := by
  have hi : i < s.length := Nat.lt_of_le_of_lt hij hj
  have h := hs.rel_get_of_le (a := ⟨i, hi⟩) (b := ⟨j, hj⟩) (Fin.mk_le_mk.mpr hij)
  rw [List.getD_eq_getElem s 0 hi, List.getD_eq_getElem s 0 hj]
  simpa [List.get_eq_getElem] using h

theorem interpAt_mono {s : List ℚ} {n : ℕ} (hs : List.Sorted (· ≤ ·) s)
    (hlen : s.length = n) (hn : 1 ≤ n) {h1 h2 : ℚ}
    (h1nn : 0 ≤ h1) (h12 : h1 ≤ h2) (h2top : h2 ≤ (n : ℚ) - 1) :
    interpAt s n h1 ≤ interpAt s n h2 := by
  have h2nn : 0 ≤ h2 := le_trans h1nn h12
  have hi12 : ⌊h1⌋₊ ≤ ⌊h2⌋₊ := Nat.floor_mono h12
  have hi1le : (⌊h1⌋₊ : ℚ) ≤ h1 := Nat.floor_le h1nn
  have hi2le : (⌊h2⌋₊ : ℚ) ≤ h2 := Nat.floor_le h2nn
  have h1lt : h1 < (⌊h1⌋₊ : ℚ) + 1 := Nat.lt_floor_add_one h1
  have hcast : ((n : ℚ) - 1) = ((n - 1 : ℕ) : ℚ) := by
    rw [Nat.cast_sub hn, Nat.cast_one]
  have hi2top : ⌊h2⌋₊ ≤ n - 1 := by
    have hfl : ⌊h2⌋₊ ≤ ⌊((n - 1 : ℕ) : ℚ)⌋₊ := Nat.floor_mono (by rw [← hcast]; exact h2top)
    rwa [Nat.floor_natCast] at hfl
  have hi1n : ⌊h1⌋₊ < n := by omega
  have hi2n : ⌊h2⌋₊ < n := by omega
  have hlo12 : s.getD ⌊h1⌋₊ 0 ≤ s.getD ⌊h2⌋₊ 0 :=
    getD_sorted_mono hs hi12 (hlen.symm ▸ hi2n)
  have hlom1 : s.getD ⌊h1⌋₊ 0 ≤ s.getD (min (⌊h1⌋₊ + 1) (n - 1)) 0 :=
    getD_sorted_mono hs (by omega) (hlen.symm ▸ (by omega : min (⌊h1⌋₊ + 1) (n - 1) < n))
  have hlom2 : s.getD ⌊h2⌋₊ 0 ≤ s.getD (min (⌊h2⌋₊ + 1) (n - 1)) 0 :=
    getD_sorted_mono hs (by omega) (hlen.symm ▸ (by omega : min (⌊h2⌋₊ + 1) (n - 1) < n))
  unfold interpAt
  rcases Nat.eq_or_lt_of_le hi12 with heq | hlt
  · rw [← heq]
    have hγ : h1 - (⌊h1⌋₊ : ℚ) ≤ h2 - (⌊h1⌋₊ : ℚ) := by linarith
    nlinarith [sub_nonneg.mpr hlom1]
  · have hm1lo2 : s.getD (min (⌊h1⌋₊ + 1) (n - 1)) 0 ≤ s.getD ⌊h2⌋₊ 0 :=
      getD_sorted_mono hs (by omega) (hlen.symm ▸ hi2n)
    have hchain1 : s.getD ⌊h1⌋₊ 0 +
        (h1 - (⌊h1⌋₊ : ℚ)) * (s.getD (min (⌊h1⌋₊ + 1) (n - 1)) 0 - s.getD ⌊h1⌋₊ 0) ≤
        s.getD (min (⌊h1⌋₊ + 1) (n - 1)) 0 := by
      nlinarith [sub_nonneg.mpr hlom1]
    have hchain3 : s.getD ⌊h2⌋₊ 0 ≤ s.getD ⌊h2⌋₊ 0 +
        (h2 - (⌊h2⌋₊ : ℚ)) * (s.getD (min (⌊h2⌋₊ + 1) (n - 1)) 0 - s.getD ⌊h2⌋₊ 0) := by
      nlinarith [sub_nonneg.mpr hlom2]
    linarith

theorem percentile_mono (xs : List ℚ) {q1 q2 : ℚ} (h0 : 0 ≤ q1) (h12 : q1 ≤ q2)
    (h100 : q2 ≤ 100) : percentile xs q1 ≤ percentile xs q2 := by
  unfold percentile
  by_cases hxs : xs.isEmpty
  · simp [hxs]
  · rw [if_neg hxs, if_neg hxs]
    have hn : 1 ≤ xs.length := by
      rcases xs with _ | ⟨a, t⟩
      · simp at hxs
      · simp
    have hfac : (0 : ℚ) ≤ (xs.length : ℚ) - 1 := by
      have h1 : (1 : ℚ) ≤ (xs.length : ℚ) := by exact_mod_cast hn
      linarith
    apply interpAt_mono (List.sorted_insertionSort _ xs)
      ((List.perm_insertionSort _ xs).length_eq) hn
    · exact div_nonneg (mul_nonneg h0 hfac) (by norm_num)
    · exact (div_le_div_iff_of_pos_right (by norm_num)).mpr
        (mul_le_mul_of_nonneg_right h12 hfac)
    · rw [div_le_iff₀ (by norm_num : (0 : ℚ) < 100)]
      nlinarith

theorem robustness_nonneg (xs : List ℚ) : 0 ≤ percentile xs 90 - percentile xs 10 := by
  have h := percentile_mono xs (by norm_num) (by norm_num : (10 : ℚ) ≤ 90) (by norm_num)
  linarith

theorem winFrac_bounds (points : List ℕ) : 0 ≤ winFrac points ∧ winFrac points ≤ 1 := by
  unfold winFrac
  rcases points with _ | ⟨p, ps⟩
  · norm_num
  · have hlen : (0 : ℚ) < ((p :: ps).length : ℚ) := by
      exact_mod_cast Nat.succ_pos ps.length
    constructor
    · exact div_nonneg (by positivity) (le_of_lt hlen)
    · rw [div_le_one hlen]
      exact_mod_cast List.countP_le_length _

theorem evalRowFor_bounds (candidate : StrategyCandidate) (totalLaps : ℕ) (baseLapTime : ℚ)
    (degradation : List (String × ℚ)) (fuelLoadProxy trafficIndex rainIndex : ℚ)
    (cfg : SimulationConfig) (g : ℕ → ℚ) (idx : ℕ) :
    0 ≤ (evalRowFor candidate totalLaps baseLapTime degradation fuelLoadProxy trafficIndex
        rainIndex cfg g idx).1.robustness_window ∧
    0 ≤ (evalRowFor candidate totalLaps baseLapTime degradation fuelLoadProxy trafficIndex
        rainIndex cfg g idx).1.win_probability ∧
    (evalRowFor candidate totalLaps baseLapTime degradation fuelLoadProxy trafficIndex
        rainIndex cfg g idx).1.win_probability ≤ 1 :=
  ⟨robustness_nonneg _, (winFrac_bounds _).1, (winFrac_bounds _).2⟩

theorem foldl_evalStep_bounds (totalLaps : ℕ) (baseLapTime : ℚ)
    (degradation : List (String × ℚ)) (fuelLoadProxy trafficIndex rainIndex : ℚ)
    (cfg : SimulationConfig) (g : ℕ → ℚ) :
    ∀ (cs : List StrategyCandidate) (acc : List EvalRow × ℕ),
      (∀ row ∈ acc.1, 0 ≤ row.robustness_window ∧ 0 ≤ row.win_probability ∧
        row.win_probability ≤ 1) →
      ∀ row ∈ (cs.foldl
          (evalStep totalLaps baseLapTime degradation fuelLoadProxy trafficIndex rainIndex cfg g)
          acc).1,
        0 ≤ row.robustness_window ∧ 0 ≤ row.win_probability ∧ row.win_probability ≤ 1 := by
  intro cs
  induction cs with
  | nil => intro acc hacc; exact hacc
  | cons c t ih =>
      intro acc hacc
      apply ih
      intro row hrow
      rcases List.mem_append.mp hrow with h' | h'
      · exact hacc row h'
      · rcases List.mem_singleton.mp h' with rfl
        exact evalRowFor_bounds c totalLaps baseLapTime degradation fuelLoadProxy trafficIndex
          rainIndex cfg g acc.2

theorem foldl_evalStep_length (totalLaps : ℕ) (baseLapTime : ℚ)
    (degradation : List (String × ℚ)) (fuelLoadProxy trafficIndex rainIndex : ℚ)
    (cfg : SimulationConfig) (g : ℕ → ℚ) :
    ∀ (cs : List StrategyCandidate) (acc : List EvalRow × ℕ),
      ((cs.foldl
          (evalStep totalLaps baseLapTime degradation fuelLoadProxy trafficIndex rainIndex cfg g)
          acc).1).length = acc.1.length + cs.length := by
  intro cs
  induction cs with
  | nil => intro acc; rfl
  | cons c t ih =>
      intro acc
      rw [List.foldl_cons, ih]
      simp [evalStep]
      omega

/-- C2 (behavior of the code at the failing input): with an empty candidate
list `evaluate_strategies` builds a DataFrame with no columns, and the final
`sort_values` on `strategy_score` raises `KeyError` instead of returning an
empty table. -/
theorem evaluate_strategies_empty_raises (totalLaps : ℕ) (baseLapTime : ℚ)
    (degradation : List (String × ℚ)) (fuelLoadProxy trafficIndex rainIndex : ℚ)
    (cfg : SimulationConfig) (g : ℕ → ℚ) :
    evaluate_strategies [] totalLaps baseLapTime degradation fuelLoadProxy trafficIndex rainIndex
      cfg g = Except.error "KeyError: strategy_score" := rfl

/-- C6: the evaluator output is a function of its arguments and the random
seed alone (the numpy generator is freshly derived from `random_state` inside
the call and no other state is read): two runs with identical inputs and an
identical seed produce identical tables. -/
theorem evaluator_deterministic (mkStream : ℤ → ℕ → ℚ) (candidates : List StrategyCandidate)
    (totalLaps : ℕ) (baseLapTime : ℚ) (degradation : List (String × ℚ))
    (fuelLoadProxy trafficIndex rainIndex : ℚ) (cfg : SimulationConfig) (s1 s2 : ℤ)
    (h : s1 = s2) :
    evaluate_strategies_seeded mkStream candidates totalLaps baseLapTime degradation fuelLoadProxy
        trafficIndex rainIndex cfg s1 =
      evaluate_strategies_seeded mkStream candidates totalLaps baseLapTime degradation
        fuelLoadProxy trafficIndex rainIndex cfg s2 := by
  rw [h]

/-- C6 witness. -/
theorem evaluator_deterministic_witness :
    ((42 : ℤ) = 42) ∧
    evaluate_strategies_seeded (fun _ _ => 0) [wStrategy] 3 90 [] 0 0 0 wCfg 42 =
      evaluate_strategies_seeded (fun _ _ => 0) [wStrategy] 3 90 [] 0 0 0 wCfg 42 :=
  ⟨rfl, evaluator_deterministic (fun _ _ => 0) [wStrategy] 3 90 [] 0 0 0 wCfg 42 42 rfl⟩

/-- C9: for a non-empty candidate list and positive trial count the evaluator
returns its sorted table, and every row satisfies `robustness_window ≥ 0` and
`0 ≤ win_probability ≤ 1`. -/
theorem evaluator_row_bounds (candidates : List StrategyCandidate) (totalLaps : ℕ)
    (baseLapTime : ℚ) (degradation : List (String × ℚ))
    (fuelLoadProxy trafficIndex rainIndex : ℚ) (cfg : SimulationConfig) (g : ℕ → ℚ)
    (hc : candidates ≠ []) (_hn : 0 < cfg.n_simulations) :
    evaluate_strategies candidates totalLaps baseLapTime degradation fuelLoadProxy trafficIndex
        rainIndex cfg g =
      Except.ok (sortRows (evaluateRows candidates totalLaps baseLapTime degradation
        fuelLoadProxy trafficIndex rainIndex cfg g)) ∧
    ∀ row ∈ sortRows (evaluateRows candidates totalLaps baseLapTime degradation fuelLoadProxy
        trafficIndex rainIndex cfg g),
      0 ≤ row.robustness_window ∧ 0 ≤ row.win_probability ∧ row.win_probability ≤ 1 := by
  have hlen : (evaluateRows candidates totalLaps baseLapTime degradation fuelLoadProxy
      trafficIndex rainIndex cfg g).length = candidates.length := by
    unfold evaluateRows
    rw [foldl_evalStep_length]
    simp
  have hne : (evaluateRows candidates totalLaps baseLapTime degradation fuelLoadProxy
      trafficIndex rainIndex cfg g).isEmpty = false := by
    rcases hrows : evaluateRows candidates totalLaps baseLapTime degradation fuelLoadProxy
        trafficIndex rainIndex cfg g with _ | ⟨r, rs⟩
    · rw [hrows] at hlen
      exact absurd (List.length_eq_zero.mp hlen.symm) hc
    · rfl
  constructor
  · simp [evaluate_strategies, hne]
  · intro row hrow
    have hmem : row ∈ evaluateRows candidates totalLaps baseLapTime degradation fuelLoadProxy
        trafficIndex rainIndex cfg g :=
      (List.perm_insertionSort rowLE _).mem_iff.mp hrow
    exact foldl_evalStep_bounds totalLaps baseLapTime degradation fuelLoadProxy trafficIndex
      rainIndex cfg g candidates ([], 0) (by intro r hr; exact absurd hr (List.not_mem_nil r))
      row hmem

def wCand : StrategyCandidate := ⟨"A", ["SOFT"], []⟩

/-- C9 witness. -/
theorem evaluator_row_bounds_witness :
    (([wCand] : List StrategyCandidate) ≠ [] ∧ 0 < wCfg.n_simulations) ∧
    (evaluate_strategies [wCand] 1 100 [] 0 0 0 wCfg wStream =
        Except.ok (sortRows (evaluateRows [wCand] 1 100 [] 0 0 0 wCfg wStream)) ∧
      ∀ row ∈ sortRows (evaluateRows [wCand] 1 100 [] 0 0 0 wCfg wStream),
        0 ≤ row.robustness_window ∧ 0 ≤ row.win_probability ∧ row.win_probability ≤ 1) :=
  ⟨⟨by decide, by decide⟩,
    evaluator_row_bounds [wCand] 1 100 [] 0 0 0 wCfg wStream (by decide) (by decide)⟩

/-! ## Contingency engine (strategy/contingency.py) -/

structure ContingencyScenario where
  key : String
  label : String
  base_lap_delta : ℚ := 0
  deg_multiplier : ℚ := 1
  fuel_delta : ℚ := 0
  traffic_delta : ℚ := 0
  rain_delta : ℚ := 0
  pit_loss_delta : ℚ := 0
  safety_car_delta : ℚ := 0
  weather_uncertainty_scale : ℚ := 1
  traffic_uncertainty_scale : ℚ := 1
deriving DecidableEq, Repr

/-- The fixed scenario catalog (contingency.py lines 26-61). -/
def CONTINGENCY_SCENARIOS : List ContingencyScenario :=
  [ { key := "baseline", label := "Baseline" },
    { key := "weather_change", label := "Weather Change", deg_multiplier := 23/20,
      traffic_delta := 1/10, rain_delta := 7/20, weather_uncertainty_scale := 27/20 },
    { key := "engine_conservation", label := "Engine Concern", base_lap_delta := 9/20,
      fuel_delta := 3/25, pit_loss_delta := 11/10, safety_car_delta := 1/25 },
    { key := "driver_error_recovery", label := "Driver Error Recovery", base_lap_delta := 11/50,
      traffic_delta := 6/25, safety_car_delta := 3/50, traffic_uncertainty_scale := 13/10 },
    { key := "race_chaos", label := "Race Chaos", traffic_delta := 9/50, rain_delta := 7/50,
      safety_car_delta := 4/25, weather_uncertainty_scale := 6/5,
      traffic_uncertainty_scale := 5/4 } ]

/-- Models `_scenario_cfg` (contingency.py lines 64-79). -/
def scenarioCfg (base : SimulationConfig) (scenario : ContingencyScenario) (nSim : ℕ) :
    SimulationConfig :=
  { n_simulations := nSim
    pit_loss_seconds := max 5 (base.pit_loss_seconds + scenario.pit_loss_delta)
    safety_car_probability :=
      min (19/20) (max 0 (base.safety_car_probability + scenario.safety_car_delta))
    weather_uncertainty_seconds :=
      max (1/100) (base.weather_uncertainty_seconds * scenario.weather_uncertainty_scale)
    traffic_uncertainty_seconds :=
      max (1/100) (base.traffic_uncertainty_seconds * scenario.traffic_uncertainty_scale) }

/-- Models `_scenario_degradation` (contingency.py lines 82-83). -/
def scenarioDegradation (degradation : List (String × ℚ)) (scenario : ContingencyScenario) :
    List (String × ℚ) :=
  degradation.map fun kv => (kv.1, max 0 (kv.2 * scenario.deg_multiplier))

/-- Per-scenario evaluator configs of `evaluate_strategies_with_contingencies`
(contingency.py lines 110-123): `contingency_sim_count = min(n_simulations,
max(80, int(n_simulations * 0.2)))`, applied to every scenario except the
baseline, which keeps the full count. -/
def scenarioEvalPlan (cfg : SimulationConfig) : List (String × SimulationConfig) :=
  let contingencySimCount := min cfg.n_simulations (max 80 (cfg.n_simulations * 2 / 10))
  CONTINGENCY_SCENARIOS.map fun scenario =>
    (scenario.key,
     scenarioCfg cfg scenario
       (if scenario.key = "baseline" then cfg.n_simulations else contingencySimCount))

/-- C8: every non-baseline scenario is evaluated with
`min(baseline n_simulations, max(80, floor(0.2 * baseline n_simulations)))`
trials, while the baseline scenario keeps the full baseline count. -/
theorem contingency_trial_counts (cfg : SimulationConfig) (p : String × SimulationConfig)
    (hp : p ∈ scenarioEvalPlan cfg) :
    p.2.n_simulations =
      if p.1 = "baseline" then cfg.n_simulations
      else min cfg.n_simulations (max 80 (cfg.n_simulations / 5)) := by
  have h25 : cfg.n_simulations * 2 / 10 = cfg.n_simulations / 5 := by omega
  simp only [scenarioEvalPlan, List.mem_map] at hp
  obtain ⟨scenario, _hsc, rfl⟩ := hp
  simp only [scenarioCfg]
  rw [h25]

def wBaseCfg : SimulationConfig := ⟨3000, 43/2, 9/50, 7/20, 2/5⟩

def wScenario : ContingencyScenario := { key := "baseline", label := "Baseline" }

def wPlanEntry : String × SimulationConfig :=
  (wScenario.key,
   scenarioCfg wBaseCfg wScenario
     (if wScenario.key = "baseline" then wBaseCfg.n_simulations
      else min wBaseCfg.n_simulations (max 80 (wBaseCfg.n_simulations * 2 / 10))))

theorem wPlanEntry_mem : wPlanEntry ∈ scenarioEvalPlan wBaseCfg :=
  List.mem_cons_self _ _

/-- C8 witness. -/
theorem contingency_trial_counts_witness :
    (wPlanEntry ∈ scenarioEvalPlan wBaseCfg) ∧
    wPlanEntry.2.n_simulations =
      (if wPlanEntry.1 = "baseline" then wBaseCfg.n_simulations
       else min wBaseCfg.n_simulations (max 80 (wBaseCfg.n_simulations / 5))) :=
  ⟨wPlanEntry_mem, contingency_trial_counts wBaseCfg wPlanEntry wPlanEntry_mem⟩

/-! ## Contingency ranker (models/contingency_ranker.py) -/

structure CRow where
  strategy : String
  stops : ℕ
  compounds : String
  baseline_expected_race_time : ℚ
  baseline_win_probability : ℚ
  baseline_strategy_score : ℚ
  baseline_robustness_window : ℚ
  weather_change_strategy_score : ℚ
  engine_conservation_strategy_score : ℚ
  driver_error_recovery_strategy_score : ℚ
  race_chaos_strategy_score : ℚ
  weather_change_win_probability : ℚ
  engine_conservation_win_probability : ℚ
  driver_error_recovery_win_probability : ℚ
  race_chaos_win_probability : ℚ
  weather_change_robustness_window : ℚ
  engine_conservation_robustness_window : ℚ
  driver_error_recovery_robustness_window : ℚ
  race_chaos_robustness_window : ℚ
  top3_scenario_hits : ℕ
deriving DecidableEq, Repr

/-- Models `_target` (contingency_ranker.py lines 48-73): mean of the four
scenario strategy scores, plus 0.2 × mean scenario win probability, plus
0.06 × top3 scenario hits, minus 0.01 × mean scenario robustness window. -/
def targetOf (r : CRow) : ℚ :=
  (r.weather_change_strategy_score + r.engine_conservation_strategy_score +
      r.driver_error_recovery_strategy_score + r.race_chaos_strategy_score) / 4 +
    (1/5) * ((r.weather_change_win_probability + r.engine_conservation_win_probability +
      r.driver_error_recovery_win_probability + r.race_chaos_win_probability) / 4) +
    (3/50) * (r.top3_scenario_hits : ℚ) -
    (1/100) * ((r.weather_change_robustness_window + r.engine_conservation_robustness_window +
      r.driver_error_recovery_robustness_window + r.race_chaos_robustness_window) / 4)

/-- Models `work.drop_duplicates(subset=["strategy"])` (line 82): keep the
first row carrying each strategy name. -/
def dedupFirst (l : List CRow) : List CRow :=
  l.foldl (fun acc r => if acc.any fun a => a.strategy = r.strategy then acc else acc ++ [r]) []

/-- Sort key of the ranked table (lines 107-110): `contingency_rank_score`
descending, tie-break `baseline_strategy_score` descending. -/
def rankedLE (p q : CRow × ℚ) : Prop :=
  q.2 < p.2 ∨ (p.2 = q.2 ∧ q.1.baseline_strategy_score ≤ p.1.baseline_strategy_score)

instance : DecidableRel rankedLE := fun p q => by
  unfold rankedLE
  exact inferInstance

structure ContingencyRankResult where
  ranked : List (CRow × ℚ)
  maeValue : ℚ

/-- Models `ContingencyRanker.rank` (lines 80-111).  The 75/25
`train_test_split`, the `GradientBoostingRegressor` fit, its predictions and
its held-out mean absolute error are external sklearn library calls,
abstracted as the `fitted` parameter returning a predictor and its mae; the
under-12-rows branch never reaches them and is fully concrete.  Each ranked
entry pairs a row with its `contingency_rank_score`. -/
def rank (fitted : List CRow → (CRow → ℚ) × ℚ) (table : List CRow) : ContingencyRankResult :=
  let work := dedupFirst table
  if 12 ≤ work.length then
    { ranked := List.insertionSort rankedLE (work.map fun r => (r, (fitted work).1 r))
      maeValue := (fitted work).2 }
  else
    { ranked := List.insertionSort rankedLE (work.map fun r => (r, targetOf r))
      maeValue := 0 }

/-- C7: with fewer than 12 deduplicated rows the ranker skips model fitting —
every ranked row's `contingency_rank_score` equals the raw composite target
and the reported `metrics["mae"]` is 0. -/
theorem ranker_small_table (fitted : List CRow → (CRow → ℚ) × ℚ) (table : List CRow)
    (h : (dedupFirst table).length < 12) :
    (rank fitted table).maeValue = 0 ∧
    ∀ p ∈ (rank fitted table).ranked, p.2 = targetOf p.1 := by
  have h12 : ¬ 12 ≤ (dedupFirst table).length := by omega
  simp only [rank]
  rw [if_neg h12]
  refine ⟨rfl, ?_⟩
  intro p hp
  have hp' : p ∈ (dedupFirst table).map fun r => (r, targetOf r) :=
    (List.perm_insertionSort rankedLE _).mem_iff.mp hp
  rcases List.mem_map.mp hp' with ⟨r, _, rfl⟩
  rfl

def wCRow : CRow :=
  ⟨"A", 1, "SOFT->HARD", 0, 0, 0, 0, 0, 0, 0, 0, 0, 0, 0, 0, 0, 0, 0, 0, 0⟩

/-- C7 witness. -/
theorem ranker_small_table_witness :
    ((dedupFirst [wCRow]).length < 12) ∧
    ((rank (fun _ => (fun _ => 0, 0)) [wCRow]).maeValue = 0 ∧
      ∀ p ∈ (rank (fun _ => (fun _ => 0, 0)) [wCRow]).ranked, p.2 = targetOf p.1) :=
  ⟨by decide, ranker_small_table (fun _ => (fun _ => 0, 0)) [wCRow] (by decide)⟩

end F1StrategyLab
